import Mathlib

/-!
Verification of `src/Networking/mc-network-test.py` (TechexTools).

The file shallowly embeds the two roles of the multicast network tester:

* the prober (`loop_sending_mc`): its loop-local state (`num_sent`, `sleep`),
  the per-cycle body (`loop_body`), and the send/ack-drain routine
  (`mc_send`), with the socket receive interactions made explicit as an
  event list;
* the responder (`receive_mc`): its per-datagram body (`receive_mc_step`)
  and the payload decoding (`packet_no`), with Python's `str.split`
  embedded as `pySplit` over `List Char` and UTF-8 decodability of raw
  bytes embedded as the `RawData` sum.

Time delays are embedded as exact rationals (`ℚ`); the float arithmetic in
the source (halving, doubling, `min`/`max` against 1.0 and 10.0) is exact
on binary floats over the magnitudes involved, so `ℚ` is faithful.
-/

namespace MCNetworkTest

/-- A network endpoint: host plus UDP port, as seen in `recvfrom`/`sendto`
address pairs. -/
structure Address where
  host : List Char
  port : Nat
  deriving DecidableEq, Repr

/-! ## Prober pacing state and loop body (`loop_sending_mc`) -/

/-- The loop-local mutable state of `loop_sending_mc`: the probe sequence
counter `num_sent` and the inter-probe delay `sleep` (seconds). -/
structure ProberState where
  num_sent : Nat
  sleep : ℚ
  deriving DecidableEq, Repr

/-- Initial state of `loop_sending_mc`: `num_sent = 0`,
`sleep = 2.0` (the default two-second pacing). -/
def init_state : ProberState := { num_sent := 0, sleep := 2 }

/-- The probe payload `message.format(num_sent)` for template
`'very important data - ' + str(n)` with the sequence number rendered in
decimal (`Nat.repr`). -/
def probeMsg (n : Nat) : List Char :=
  "very important data - ".toList ++ (Nat.repr n).toList

/-- One iteration of the `while loop:` body of `loop_sending_mc`, with the
result of `mc_send` abstracted as the boolean `ackReceived`: it returns the
single datagram payload handed to `mc_send` this cycle, and the updated
state, where `sleep` is halved on success and set to
`min(max(1.0, sleep*2), 10.0)` on failure, and `num_sent` is incremented
(`num_sent += 1`) in either case. -/
def loop_body (ackReceived : Bool) (st : ProberState) : List Char × ProberState :=
  (probeMsg st.num_sent,
    { num_sent := st.num_sent + 1,
      sleep := if ackReceived then st.sleep / 2
               else min (max 1 (st.sleep * 2)) 10 })

/-- The state transition of one pacing cycle (second component of
`loop_body`). -/
def loopStep (ackReceived : Bool) (st : ProberState) : ProberState :=
  (loop_body ackReceived st).2

/-- `iterCycles b st n`: the prober state after `n` consecutive cycles whose
`mc_send` outcome is always `b`. -/
def iterCycles (b : Bool) (st : ProberState) : Nat → ProberState
  | 0 => st
  | n + 1 => loopStep b (iterCycles b st n)

theorem loopStep_sleep_true (st : ProberState) :
    (loopStep true st).sleep = st.sleep / 2 := rfl

theorem loopStep_sleep_false (st : ProberState) :
    (loopStep false st).sleep = min (max 1 (st.sleep * 2)) 10 := rfl

theorem loopStep_num_sent (b : Bool) (st : ProberState) :
    (loopStep b st).num_sent = st.num_sent + 1 := by
  cases b <;> rfl

/-- Sleep after `n` consecutive successful cycles: exact geometric halving. -/
theorem iterCycles_true_sleep (st : ProberState) (n : Nat) :
    (iterCycles true st n).sleep = st.sleep / 2 ^ n := by
  induction n with
  | zero => simp [iterCycles]
  | succ n ih =>
    rw [iterCycles, loopStep_sleep_true, ih, pow_succ, div_div]

/-! ## Prober send/await routine (`mc_send`)

The socket interactions of `mc_send` are made explicit: each attempted
`sock.recvfrom(16)` either delivers a datagram, raises `socket.timeout`, or
raises some other socket-level error. -/

/-- One outcome of an attempted `sock.recvfrom(16)` inside `mc_send`. -/
inductive RecvEvent where
  /-- A datagram arrived: its raw bytes and the sender address. -/
  | datagram (raw : List UInt8) (server : Address)
  /-- The receive raised `socket.timeout`. -/
  | timeout
  /-- The receive raised some other socket-level error (caught only by the
  outer bare `except:`). -/
  | sockError
  deriving DecidableEq, Repr

/-- Whether a receive outcome delivered a datagram. -/
def RecvEvent.isDatagram : RecvEvent → Bool
  | .datagram _ _ => true
  | _ => false

/-- The constructor shape of a receive outcome, forgetting payload and
sender (used to state that `mc_send` never inspects either). -/
inductive EventShape where
  | datagram
  | timeout
  | sockError
  deriving DecidableEq, Repr

/-- Forget a receive outcome's data. -/
def RecvEvent.shape : RecvEvent → EventShape
  | .datagram _ _ => .datagram
  | .timeout => .timeout
  | .sockError => .sockError

/-- What `sock.recvfrom(16)` returns for a pending datagram with raw
payload `raw`: at most the first 16 bytes. -/
def recvfrom16 (raw : List UInt8) : List UInt8 := raw.take 16

/-- How `mc_send` ends: either the `while True:` receive loop returns a
boolean (`received_ack`), or the outer `except:` runs `sock.close()`
followed by `sys.exit()`. -/
inductive MCSendResult where
  /-- `return received_ack` from the receive loop. -/
  | returned (received_ack : Bool)
  /-- Socket closed and process terminated (`sock.close(); sys.exit()`). -/
  | exited
  deriving DecidableEq, Repr

/-- The `while True:` receive-drain loop of `mc_send`, run against the list
of receive outcomes the socket produces: a datagram sets
`received_ack = True` and loops, `socket.timeout` returns `received_ack`,
any other error falls to the outer `except:` (`.exited`). `none` means the
outcome list was exhausted with the loop still blocked on `recvfrom`
(the model's stand-in for an unterminated wait). -/
def recvDrain (received_ack : Bool) : List RecvEvent → Option MCSendResult
  | [] => none
  | .datagram raw _ :: es =>
    let _data := recvfrom16 raw
    recvDrain true es
  | .timeout :: _ => some (.returned received_ack)
  | .sockError :: _ => some .exited

/-- `mc_send`: send one datagram (`sendOk` tells whether `sock.sendto`
succeeded; a raised send error is caught by the outer bare `except:`), then
drain receives until a timeout. The multicast group and message are passed
through as in the source; the result never depends on them. -/
def mc_send (multicast_group : Address) (message : List Char)
    (sendOk : Bool) (events : List RecvEvent) : Option MCSendResult :=
  if sendOk then recvDrain false events else some MCSendResult.exited

/-- What a receive attempt yields when no datagram is pending, as a
function of the value passed to `sock.settimeout` in `form_sock_send`
(CPython semantics, timeouts taken non-negative: a positive timeout makes
the blocked receive raise `socket.timeout` on expiry, while `settimeout(0)`
puts the socket in non-blocking mode, so the empty receive raises
`BlockingIOError` — which is not `socket.timeout`). -/
def emptyQueueRecvEvent (timeout : ℚ) : RecvEvent :=
  if 0 < timeout then RecvEvent.timeout else RecvEvent.sockError

/-! ## Responder (`receive_mc`) -/

/-- A raw inbound payload on the responder socket, classified by whether
`bytes.decode()` (UTF-8) succeeds on it: either text that decodes to the
given character list, or undecodable junk. -/
inductive RawData where
  | utf8 (s : List Char)
  | junk
  deriving DecidableEq, Repr

/-- `data.decode()`: the decoded text, or `none` when
`UnicodeDecodeError` is raised. -/
def RawData.decode : RawData → Option (List Char)
  | .utf8 s => some s
  | .junk => none

/-- Python's `str.split(sep)` for a single-character separator, over
character lists: maximal runs between separator occurrences, keeping empty
runs (so the result always has one more element than the number of
separator occurrences). -/
def pySplit (sep : Char) : List Char → List (List Char)
  | [] => [[]]
  | c :: cs =>
    match pySplit sep cs with
    | [] => [[]]
    | h :: t => if c = sep then [] :: h :: t else (c :: h) :: t

/-- `data_str.split("-")[1]` guarded by the responder's `try:`: the decoded
payload is split on `"-"` and the element at index 1 taken; `none` covers
both a `UnicodeDecodeError` from `decode` and an `IndexError` from `[1]`. -/
def packet_no (data : RawData) : Option (List Char) :=
  match data.decode with
  | none => none
  | some s => (pySplit '-' s)[1]?

/-- What one iteration of the responder loop does after `recvfrom`
returns. -/
inductive ResponderAction where
  /-- `sock.sendto(payload, dest)`: exactly one unicast ack. -/
  | ackSent (payload : List Char) (dest : Address)
  /-- `time.sleep(seconds)` on the `except:` path, no ack sent. -/
  | pause (seconds : Nat)
  deriving DecidableEq, Repr

/-- The body of the responder's receive/respond loop for one inbound
datagram: on successful decode and split, send `"ack - " + packet_no` back
to the datagram's source address; on any failure, sleep 5 seconds and send
nothing. -/
def receive_mc_step (data : RawData) (address : Address) : ResponderAction :=
  match packet_no data with
  | some pn => .ackSent ("ack - ".toList ++ pn) address
  | none => .pause 5

/-! ## Lemmas about `pySplit` -/

theorem pySplit_ne_nil (sep : Char) (l : List Char) : pySplit sep l ≠ [] := by
  cases l with
  | nil => simp [pySplit]
  | cons c cs =>
    rw [pySplit]
    rcases h : pySplit sep cs with _ | ⟨hd, tl⟩
    · simp
    · by_cases hc : c = sep <;> simp [hc]

theorem pySplit_not_mem {sep : Char} {l : List Char} (h : sep ∉ l) :
    pySplit sep l = [l] := by
  induction l with
  | nil => rfl
  | cons c cs ih =>
    have hc : c ≠ sep := fun hcs => h (hcs ▸ List.mem_cons_self c cs)
    have hcs : sep ∉ cs := fun hm => h (List.mem_cons_of_mem c hm)
    rw [pySplit, ih hcs]
    simp [hc]

theorem pySplit_append_sep {sep : Char} {a : List Char} (b : List Char)
    (h : sep ∉ a) : pySplit sep (a ++ sep :: b) = a :: pySplit sep b := by
  induction a with
  | nil =>
    rw [List.nil_append, pySplit]
    rcases hs : pySplit sep b with _ | ⟨hd, tl⟩
    · exact absurd hs (pySplit_ne_nil sep b)
    · simp
  | cons c cs ih =>
    have hc : c ≠ sep := fun hcs => h (hcs ▸ List.mem_cons_self c cs)
    have hcs : sep ∉ cs := fun hm => h (List.mem_cons_of_mem c hm)
    rw [List.cons_append, pySplit, ih hcs]
    simp [hc]

theorem pySplit_length_two_le {sep : Char} {l : List Char} (h : sep ∈ l) :
    2 ≤ (pySplit sep l).length := by
  induction l with
  | nil => cases h
  | cons c cs ih =>
    rw [pySplit]
    rcases hs : pySplit sep cs with _ | ⟨hd, tl⟩
    · exact absurd hs (pySplit_ne_nil sep cs)
    · by_cases hc : c = sep
      · simp [hc]
      · have hm : sep ∈ cs := by
          rcases List.mem_cons.mp h with h1 | h1
          · exact absurd h1.symm hc
          · exact h1
        have := ih hm
        rw [hs] at this
        simp only [hc, if_false, List.length_cons] at *
        omega

/-- The decode-and-split pipeline fails exactly on undecodable bytes or on
text without a `'-'`. -/
theorem packet_no_eq_none_iff (data : RawData) :
    packet_no data = none ↔
      data = RawData.junk ∨ ∃ s, data = RawData.utf8 s ∧ '-' ∉ s := by
  cases data with
  | junk => simp [packet_no, RawData.decode]
  | utf8 s =>
    simp only [packet_no, RawData.decode]
    constructor
    · intro h
      refine Or.inr ⟨s, rfl, fun hm => ?_⟩
      have h2 := pySplit_length_two_le hm
      rw [List.getElem?_eq_none_iff] at h
      omega
    · rintro (h | ⟨s', hs', hm⟩)
      · cases h
      · cases hs'
        rw [pySplit_not_mem hm]
        rfl

/-! ## Decimal rendering lemmas (`Nat.repr`) -/

/-- The ten decimal digit characters. -/
def decDigits : List Char := ['0', '1', '2', '3', '4', '5', '6', '7', '8', '9']

theorem digitChar_mem_decDigits {m : Nat} (h : m < 10) :
    Nat.digitChar m ∈ decDigits := by
  interval_cases m <;> decide

theorem toDigitsCore_subset_decDigits (fuel : Nat) :
    ∀ (n : Nat) (ds : List Char), (∀ c ∈ ds, c ∈ decDigits) →
      ∀ c ∈ Nat.toDigitsCore 10 fuel n ds, c ∈ decDigits := by
  induction fuel with
  | zero =>
    intro n ds hds c hc
    rw [Nat.toDigitsCore] at hc
    exact hds c hc
  | succ fuel ih =>
    intro n ds hds c hc
    rw [Nat.toDigitsCore] at hc
    have hdig : Nat.digitChar (n % 10) ∈ decDigits :=
      digitChar_mem_decDigits (Nat.mod_lt _ (by norm_num))
    by_cases h0 : n / 10 = 0
    · simp only [h0, if_pos] at hc
      rcases List.mem_cons.mp hc with h1 | h1
      · exact h1 ▸ hdig
      · exact hds c h1
    · simp only [h0, if_neg, not_false_iff] at hc
      refine ih (n / 10) _ ?_ c hc
      intro c' hc'
      rcases List.mem_cons.mp hc' with h1 | h1
      · exact h1 ▸ hdig
      · exact hds c' h1

theorem repr_subset_decDigits (n : Nat) :
    ∀ c ∈ (Nat.repr n).toList, c ∈ decDigits := by
  intro c hc
  have : (Nat.repr n).toList = Nat.toDigits 10 n := rfl
  rw [this] at hc
  exact toDigitsCore_subset_decDigits (n + 1) n [] (by simp) c hc

theorem repr_not_dash (n : Nat) : '-' ∉ (Nat.repr n).toList := by
  intro h
  have := repr_subset_decDigits n '-' h
  simp [decDigits] at this

theorem repr_isDigit (n : Nat) : ∀ c ∈ (Nat.repr n).toList, c.isDigit := by
  intro c hc
  have := repr_subset_decDigits n c hc
  fin_cases this <;> decide

/-! ## Lemmas about the failure-branch delay update -/

theorem one_le_failUpdate (d : ℚ) : 1 ≤ min (max 1 (d * 2)) 10 :=
  le_min (le_max_left _ _) (by norm_num)

theorem failUpdate_le_ten (d : ℚ) : min (max 1 (d * 2)) 10 ≤ 10 :=
  min_le_right _ _

theorem le_failUpdate {d : ℚ} (h0 : 0 ≤ d) (h10 : d ≤ 10) :
    d ≤ min (max 1 (d * 2)) 10 :=
  le_min (le_trans (by linarith) (le_max_right 1 (d * 2))) h10

theorem iterCycles_false_bounds {st : ProberState} (h0 : 0 ≤ st.sleep)
    (h10 : st.sleep ≤ 10) (n : Nat) :
    0 ≤ (iterCycles false st n).sleep ∧ (iterCycles false st n).sleep ≤ 10 := by
  induction n with
  | zero => exact ⟨h0, h10⟩
  | succ n ih =>
    constructor
    · rw [iterCycles, loopStep_sleep_false]
      linarith [one_le_failUpdate (iterCycles false st n).sleep]
    · rw [iterCycles, loopStep_sleep_false]
      exact failUpdate_le_ten _

/-- The states the prober loop can visit, from its initial state. -/
inductive Reachable : ProberState → Prop where
  | init : Reachable init_state
  | step (b : Bool) {st : ProberState} : Reachable st → Reachable (loopStep b st)

/-- The loop keeps its delay within `[0, 10]` from the initial `2.0`. -/
theorem reachable_sleep_bounds {st : ProberState} (h : Reachable st) :
    0 ≤ st.sleep ∧ st.sleep ≤ 10 := by
  induction h with
  | init => constructor <;> norm_num [init_state]
  | @step b st hst ih =>
    obtain ⟨ih0, ih10⟩ := ih
    cases b with
    | true =>
      rw [loopStep_sleep_true]
      constructor <;> linarith
    | false =>
      rw [loopStep_sleep_false]
      exact ⟨by linarith [one_le_failUpdate st.sleep], failUpdate_le_ten _⟩

/-! ## Lemmas about the receive-drain loop -/

theorem recvDrain_datagram (b : Bool) (raw : List UInt8) (server : Address)
    (es : List RecvEvent) :
    recvDrain b (RecvEvent.datagram raw server :: es) = recvDrain true es := rfl

theorem recvDrain_datagrams_timeout (b : Bool) (pre rest : List RecvEvent)
    (hpre : ∀ e ∈ pre, e.isDatagram = true) :
    recvDrain b (pre ++ RecvEvent.timeout :: rest)
      = some (MCSendResult.returned (b || !pre.isEmpty)) := by
  induction pre generalizing b with
  | nil => simp [recvDrain]
  | cons e pre ih =>
    cases e with
    | datagram raw server =>
      rw [List.cons_append, recvDrain_datagram,
        ih true (fun e he => hpre e (List.mem_cons_of_mem _ he))]
      simp
    | timeout =>
      exact absurd (hpre _ (List.mem_cons_self _ _)) (by simp [RecvEvent.isDatagram])
    | sockError =>
      exact absurd (hpre _ (List.mem_cons_self _ _)) (by simp [RecvEvent.isDatagram])

theorem recvDrain_datagrams_sockError (b : Bool) (pre rest : List RecvEvent)
    (hpre : ∀ e ∈ pre, e.isDatagram = true) :
    recvDrain b (pre ++ RecvEvent.sockError :: rest) = some MCSendResult.exited := by
  induction pre generalizing b with
  | nil => simp [recvDrain]
  | cons e pre ih =>
    cases e with
    | datagram raw server =>
      rw [List.cons_append, recvDrain_datagram,
        ih true (fun e he => hpre e (List.mem_cons_of_mem _ he))]
    | timeout =>
      exact absurd (hpre _ (List.mem_cons_self _ _)) (by simp [RecvEvent.isDatagram])
    | sockError =>
      exact absurd (hpre _ (List.mem_cons_self _ _)) (by simp [RecvEvent.isDatagram])

theorem recvDrain_shape : ∀ es es' : List RecvEvent,
    es.map RecvEvent.shape = es'.map RecvEvent.shape →
    ∀ b, recvDrain b es = recvDrain b es' := by
  intro es
  induction es with
  | nil =>
    intro es' h b
    cases es' with
    | nil => rfl
    | cons e' es' => simp at h
  | cons e es ih =>
    intro es' h b
    cases es' with
    | nil => simp at h
    | cons e' es' =>
      simp only [List.map_cons, List.cons.injEq] at h
      obtain ⟨h1, h2⟩ := h
      cases e with
      | datagram raw server =>
        cases e' with
        | datagram raw' server' =>
          rw [recvDrain_datagram, recvDrain_datagram]
          exact ih es' h2 true
        | timeout => simp [RecvEvent.shape] at h1
        | sockError => simp [RecvEvent.shape] at h1
      | timeout =>
        cases e' with
        | datagram raw' server' => simp [RecvEvent.shape] at h1
        | timeout => rfl
        | sockError => simp [RecvEvent.shape] at h1
      | sockError =>
        cases e' with
        | datagram raw' server' => simp [RecvEvent.shape] at h1
        | timeout => simp [RecvEvent.shape] at h1
        | sockError => rfl

/-! ## Claim theorems -/

/-- C1: on a failure cycle (receive timeout with zero replies, i.e.
`mc_send` returned `False`), the prober's delay is updated to
`min(max(1.0, delay * 2), 10.0)` — `clamp(delay * 2, floor=1.0,
ceiling=10.0)` — for every current delay. -/
theorem C1_failure_delay_clamp (st : ProberState) :
    (loopStep false st).sleep = min (max 1 (st.sleep * 2)) 10 := rfl

/-- C2: on a success cycle the delay is updated to exactly `delay / 2` with
no lower bound, so from any positive delay a run of `n` consecutive
successes leaves `delay / 2 ^ n` and the delay strictly decreases toward
zero. -/
theorem C2_success_halves_delay (st : ProberState) :
    (loopStep true st).sleep = st.sleep / 2 ∧
    (0 < st.sleep →
      (∀ n, (iterCycles true st n).sleep = st.sleep / 2 ^ n) ∧
      ∀ n, (iterCycles true st (n + 1)).sleep < (iterCycles true st n).sleep) := by
  refine ⟨rfl, fun hpos => ⟨iterCycles_true_sleep st, fun n => ?_⟩⟩
  rw [iterCycles_true_sleep, iterCycles_true_sleep, pow_succ, ← div_div]
  exact half_lt_self (div_pos hpos (by positivity))

/-- Witness for C2 at the initial state (delay 2.0). -/
theorem C2_success_halves_delay_witness :
    (loopStep true init_state).sleep = 1 ∧
    (iterCycles true init_state 1).sleep < (iterCycles true init_state 0).sleep := by
  have h := C2_success_halves_delay init_state
  refine ⟨?_, (h.2 (by norm_num [init_state])).2 0⟩
  rw [h.1]
  norm_num [init_state]

/-- C3 as stated is false: from the non-negative delay 12.0 a single
failure update moves the delay down to 10.0, so over that run of failures
the delay is not monotonically non-decreasing. -/
theorem C3_counterexample :
    (0 : ℚ) ≤ (12 : ℚ) ∧
    (iterCycles false { num_sent := 0, sleep := 12 } 1).sleep
      < (iterCycles false { num_sent := 0, sleep := 12 } 0).sleep := by
  refine ⟨by norm_num, ?_⟩
  simp only [iterCycles, loopStep_sleep_false]
  norm_num [min_def, max_def]

/-- C3 (amended): over any run of consecutive failure cycles starting from
a non-negative delay that is at most 10.0 (an invariant every delay
reachable by the loop satisfies, see `reachable_sleep_bounds`), the delay
is monotonically non-decreasing, never exceeds 10.0, and from the first
failure update onward is at least 1.0; and no run of success updates ever
makes a non-negative delay negative. -/
theorem C3_failure_run_bounds (st : ProberState) (h0 : 0 ≤ st.sleep)
    (h10 : st.sleep ≤ 10) :
    (∀ n, (iterCycles false st n).sleep ≤ (iterCycles false st (n + 1)).sleep) ∧
    (∀ n, (iterCycles false st n).sleep ≤ 10) ∧
    (∀ n, 1 ≤ (iterCycles false st (n + 1)).sleep) ∧
    (∀ n, 0 ≤ (iterCycles true st n).sleep) := by
  refine ⟨fun n => ?_, fun n => (iterCycles_false_bounds h0 h10 n).2,
    fun n => ?_, fun n => ?_⟩
  · obtain ⟨hb0, hb10⟩ := iterCycles_false_bounds h0 h10 n
    rw [iterCycles, loopStep_sleep_false]
    exact le_failUpdate hb0 hb10
  · rw [iterCycles, loopStep_sleep_false]
    exact one_le_failUpdate _
  · rw [iterCycles_true_sleep]
    exact div_nonneg h0 (by positivity)

/-- Witness for the amended C3 at the initial state (delay 2.0). -/
theorem C3_failure_run_bounds_witness :
    (iterCycles false init_state 0).sleep ≤ (iterCycles false init_state 1).sleep ∧
    (iterCycles false init_state 3).sleep ≤ 10 ∧
    1 ≤ (iterCycles false init_state 1).sleep ∧
    0 ≤ (iterCycles true init_state 2).sleep := by
  have h := C3_failure_run_bounds init_state (by norm_num [init_state])
    (by norm_num [init_state])
  exact ⟨h.1 0, h.2.1 3, h.2.2.1 0, h.2.2.2 2⟩

/-- C7: the prober's sequence number starts at 0 and is incremented exactly
once per pacing cycle regardless of the cycle's outcome; each cycle hands
`mc_send` exactly one datagram payload, the text
`"very important data - "` followed by the sequence number in decimal, and
that payload is ASCII (every character's code point is below 128) with the
sequence rendered using decimal digit characters only. -/
theorem C7_sequence_and_payload :
    init_state.num_sent = 0 ∧
    (∀ b st, (loopStep b st).num_sent = st.num_sent + 1) ∧
    (∀ b st, (loop_body b st).1
      = "very important data - ".toList ++ (Nat.repr st.num_sent).toList) ∧
    (∀ n c, c ∈ probeMsg n → c.toNat < 128) ∧
    (∀ n c, c ∈ (Nat.repr n).toList → c.isDigit) := by
  refine ⟨rfl, loopStep_num_sent, fun b st => rfl, fun n c hc => ?_, repr_isDigit⟩
  rcases List.mem_append.mp hc with h | h
  · have hall : ∀ c ∈ "very important data - ".toList, c.toNat < 128 := by decide
    exact hall c h
  · have := repr_subset_decDigits n c h
    fin_cases this <;> decide

/-- Witness for C7: concrete payload characters of probe 0 are ASCII and
its sequence digits are decimal. -/
theorem C7_sequence_and_payload_witness :
    Char.toNat 'v' < 128 ∧ Char.isDigit '0' := by
  refine ⟨C7_sequence_and_payload.2.2.2.1 0 'v' ?_,
    C7_sequence_and_payload.2.2.2.2 0 '0' ?_⟩ <;> decide

/-- C4: during the await phase receives (each capped at 16 bytes) are
drained until a receive timeout occurs; the cycle returns success exactly
when at least one datagram arrived before that timeout; and the result
never depends on the datagram contents, the sender addresses, or the sent
message — the ack payload is never validated. -/
theorem C4_drain_until_timeout (multicast_group : Address) (message : List Char)
    (pre rest : List RecvEvent) (hpre : ∀ e ∈ pre, e.isDatagram = true) :
    mc_send multicast_group message true (pre ++ RecvEvent.timeout :: rest)
      = some (MCSendResult.returned (!pre.isEmpty)) ∧
    (∀ raw, (recvfrom16 raw).length ≤ 16) ∧
    (∀ g g' : Address, ∀ m m' : List Char, ∀ sendOk : Bool,
      ∀ es es' : List RecvEvent,
      es.map RecvEvent.shape = es'.map RecvEvent.shape →
      mc_send g m sendOk es = mc_send g' m' sendOk es') := by
  refine ⟨?_, fun raw => List.length_take_le _ _,
    fun g g' m m' sendOk es es' h => ?_⟩
  · show recvDrain false _ = _
    rw [recvDrain_datagrams_timeout false pre rest hpre]
    simp
  · cases sendOk with
    | false => rfl
    | true => exact recvDrain_shape es es' h false

/-- Witness for C4: one datagram then a timeout yields a success cycle. -/
theorem C4_drain_until_timeout_witness :
    mc_send ⟨[], 0⟩ [] true
        [RecvEvent.datagram [1, 2, 3] ⟨[], 0⟩, RecvEvent.timeout]
      = some (MCSendResult.returned true) := by
  have h := C4_drain_until_timeout ⟨[], 0⟩ []
    [RecvEvent.datagram [1, 2, 3] ⟨[], 0⟩] [] (by decide)
  simpa using h.1

/-- C8 as stated is false: `settimeout(0)` puts the send socket in
non-blocking mode, so the reply-less receive raises `BlockingIOError`
rather than `socket.timeout`, and the bare `except:` closes the socket and
exits the process instead of `mc_send` returning `False` to the pacing
loop. -/
theorem C8_counterexample :
    mc_send ⟨[], 0⟩ [] true [emptyQueueRecvEvent 0] = some MCSendResult.exited ∧
    some MCSendResult.exited ≠ some (MCSendResult.returned false) := by
  decide

/-- C8 (amended): a cycle with no replies never hangs: with any positive
timeout the receive raises `socket.timeout` and `mc_send` returns `False`
(an ordinary failure cycle), but with a timeout of 0 the socket is
non-blocking, the empty receive raises a non-timeout error, and the prober
closes the socket and terminates instead of continuing the loop. -/
theorem C8_timeout_zero (multicast_group : Address) (message : List Char)
    (t : ℚ) (ht : 0 < t) :
    mc_send multicast_group message true [emptyQueueRecvEvent t]
      = some (MCSendResult.returned false) ∧
    mc_send multicast_group message true [emptyQueueRecvEvent 0]
      = some MCSendResult.exited := by
  constructor
  · show recvDrain false [emptyQueueRecvEvent t] = _
    rw [emptyQueueRecvEvent, if_pos ht]
    rfl
  · show recvDrain false [emptyQueueRecvEvent 0] = _
    rw [emptyQueueRecvEvent, if_neg (lt_irrefl (0 : ℚ))]
    rfl

/-- Witness for the amended C8 at the default timeout 0.2 = 1/5. -/
theorem C8_timeout_zero_witness :
    (0 : ℚ) < 1 / 5 ∧
    mc_send ⟨[], 0⟩ [] true [emptyQueueRecvEvent (1 / 5)]
      = some (MCSendResult.returned false) :=
  ⟨by norm_num, (C8_timeout_zero ⟨[], 0⟩ [] (1 / 5) (by norm_num)).1⟩

/-- C9: a fault while sending, or any receive fault other than
`socket.timeout`, is unrecoverable: `mc_send` ends with the socket closed
and the process terminated (`sock.close(); sys.exit()`), never absorbed
into the pacing loop. -/
theorem C9_fatal_faults (multicast_group : Address) (message : List Char) :
    (∀ events, mc_send multicast_group message false events
      = some MCSendResult.exited) ∧
    (∀ pre rest : List RecvEvent, (∀ e ∈ pre, e.isDatagram = true) →
      mc_send multicast_group message true (pre ++ RecvEvent.sockError :: rest)
        = some MCSendResult.exited) := by
  refine ⟨fun events => rfl, fun pre rest hpre => ?_⟩
  show recvDrain false _ = _
  exact recvDrain_datagrams_sockError false pre rest hpre

/-- Witness for C9: an immediate non-timeout socket error exits. -/
theorem C9_fatal_faults_witness :
    mc_send ⟨[], 0⟩ [] true [RecvEvent.sockError] = some MCSendResult.exited := by
  have h := (C9_fatal_faults ⟨[], 0⟩ []).2 [] [] (by decide)
  simpa using h

/-- C5 as stated is false: decoding the well-formed probe payload for
sequence 7 yields the token `" 7"` (with the leading space that follows the
hyphen in the template), not `"7"`, so the ack payload is `"ack -  7"`
(two spaces), not `"ack - 7"`. -/
theorem C5_counterexample :
    packet_no (RawData.utf8 (probeMsg 7)) ≠ some "7".toList ∧
    receive_mc_step (RawData.utf8 (probeMsg 7)) ⟨[], 0⟩
      ≠ ResponderAction.ackSent ("ack - 7".toList) ⟨[], 0⟩ := by
  decide

/-- C5 (amended): for every well-formed probe payload
`"very important data - N"` (N a decimal integer), decoding yields the
token `" N"` — the decimal rendering of N preceded by the space that
follows the hyphen — and the responder sends exactly one unicast
acknowledgement with payload `"ack - "` followed by that token (so
`"ack -  N"`, with two spaces) to the exact source address and port of the
datagram. -/
theorem C5_wellformed_ack (n : Nat) (address : Address) :
    packet_no (RawData.utf8 (probeMsg n)) = some (' ' :: (Nat.repr n).toList) ∧
    receive_mc_step (RawData.utf8 (probeMsg n)) address
      = ResponderAction.ackSent
          ("ack - ".toList ++ ' ' :: (Nat.repr n).toList) address := by
  have hsplit : probeMsg n
      = "very important data ".toList ++ '-' :: (' ' :: (Nat.repr n).toList) := rfl
  have hno1 : '-' ∉ "very important data ".toList := by decide
  have hno2 : '-' ∉ ' ' :: (Nat.repr n).toList := by
    intro h
    rcases List.mem_cons.mp h with h | h
    · exact absurd h (by decide)
    · exact repr_not_dash n h
  have hp : packet_no (RawData.utf8 (probeMsg n))
      = some (' ' :: (Nat.repr n).toList) := by
    show (pySplit '-' (probeMsg n))[1]? = _
    rw [hsplit, pySplit_append_sep _ hno1, pySplit_not_mem hno2]
    rfl
  refine ⟨hp, ?_⟩
  unfold receive_mc_step
  rw [hp]

/-- C6: for every malformed inbound datagram — undecodable bytes, or text
containing no separator — the responder's loop body does not raise: it
sends no acknowledgement, pauses for exactly 5 seconds, and control returns
to the blocking receive. -/
theorem C6_malformed_pause (data : RawData) (address : Address)
    (h : data = RawData.junk ∨ ∃ s, data = RawData.utf8 s ∧ '-' ∉ s) :
    receive_mc_step data address = ResponderAction.pause 5 ∧
    ∀ payload dest,
      receive_mc_step data address ≠ ResponderAction.ackSent payload dest := by
  have hn : packet_no data = none := (packet_no_eq_none_iff data).mpr h
  have h1 : receive_mc_step data address = ResponderAction.pause 5 := by
    unfold receive_mc_step
    rw [hn]
  exact ⟨h1, fun payload dest hc => by rw [h1] at hc; cases hc⟩

/-- Witness for C6 on undecodable bytes. -/
theorem C6_malformed_pause_witness :
    receive_mc_step RawData.junk ⟨[], 0⟩ = ResponderAction.pause 5 :=
  (C6_malformed_pause RawData.junk ⟨[], 0⟩ (Or.inl rfl)).1

/-- C10: the responder's decode succeeds for every UTF-8-decodable payload
containing at least one `'-'` — the acknowledged token is the segment
between the first and second `'-'`, or everything after the first `'-'`
when it is the only one — decode failure happens exactly on undecodable
bytes or hyphen-free text, and any decodable payload with a hyphen is
answered with an acknowledgement. -/
theorem C10_decode_characterization :
    (∀ a b : List Char, '-' ∉ a → '-' ∉ b →
      packet_no (RawData.utf8 (a ++ '-' :: b)) = some b) ∧
    (∀ a b c : List Char, '-' ∉ a → '-' ∉ b →
      packet_no (RawData.utf8 (a ++ '-' :: (b ++ '-' :: c))) = some b) ∧
    (∀ s, packet_no (RawData.utf8 s) = none ↔ '-' ∉ s) ∧
    packet_no RawData.junk = none ∧
    (∀ s address, '-' ∈ s → ∃ tok, packet_no (RawData.utf8 s) = some tok ∧
      receive_mc_step (RawData.utf8 s) address
        = ResponderAction.ackSent ("ack - ".toList ++ tok) address) := by
  refine ⟨fun a b ha hb => ?_, fun a b c ha hb => ?_, fun s => ?_, rfl,
    fun s address hm => ?_⟩
  · show (pySplit '-' (a ++ '-' :: b))[1]? = some b
    rw [pySplit_append_sep b ha, pySplit_not_mem hb]
    rfl
  · show (pySplit '-' (a ++ '-' :: (b ++ '-' :: c)))[1]? = some b
    rw [pySplit_append_sep _ ha, pySplit_append_sep c hb]
    simp
  · rw [packet_no_eq_none_iff]
    constructor
    · rintro (h | ⟨s', hs', hm⟩)
      · exact absurd h (by simp)
      · injection hs' with h'
        exact h' ▸ hm
    · intro hm
      exact Or.inr ⟨s, rfl, hm⟩
  · have h2 := pySplit_length_two_le hm
    rcases h : (pySplit '-' s)[1]? with _ | tok
    · rw [List.getElem?_eq_none_iff] at h
      omega
    · have hp : packet_no (RawData.utf8 s) = some tok := h
      refine ⟨tok, hp, ?_⟩
      unfold receive_mc_step
      rw [hp]

/-- Witness for C10 on a one-hyphen and a two-hyphen payload. -/
theorem C10_decode_characterization_witness :
    packet_no (RawData.utf8 ("xy".toList ++ '-' :: ['z'])) = some ['z'] ∧
    packet_no (RawData.utf8 (['a'] ++ '-' :: (['b'] ++ '-' :: ['c'])))
      = some ['b'] :=
  ⟨C10_decode_characterization.1 "xy".toList ['z'] (by decide) (by decide),
    C10_decode_characterization.2.1 ['a'] ['b'] ['c'] (by decide) (by decide)⟩

end MCNetworkTest
